import Mathlib

/-!
# Verification of `crypto_tracker.py`

A shallow embedding, in Lean 4, of the pure/observable behaviour of the
cryptocurrency price tracker (`src/crypto_tracker.py`), together with proofs
settling the specification claims about it.

Modelling conventions:
* Python `float` values are modelled as exact rationals (`ℚ`).  Python's
  `float(...)` string conversion is modelled by `pyFloat?`, an exact parser
  for the decimal-literal grammar (optional surrounding whitespace, optional
  sign, mantissa with at most one `.` and at least one digit, optional
  `e`/`E` exponent).  Exotic inputs accepted by CPython (`inf`, `nan`,
  digit-group underscores) are outside the model; none of the claims
  depends on them.
* `None` is modelled by `Option.none`; a function that "never raises" is a
  total Lean function.
* The Selenium driver, the filesystem and wall-clock time are modelled as
  explicit state / environment parameters.
-/

namespace CryptoTracker

/-- Strip leading and trailing whitespace from a character list
(model of Python `str.strip()` / the whitespace tolerance of `float`). -/
def trimChars (cs : List Char) : List Char :=
  ((cs.dropWhile Char.isWhitespace).reverse.dropWhile Char.isWhitespace).reverse

/-- Numeric value of a string of decimal digits (most significant first). -/
def natOf (cs : List Char) : Nat :=
  cs.foldl (fun n c => 10 * n + (c.toNat - 48)) 0

/-- Parse the mantissa part of a Python float literal: digits with at most
one decimal point and at least one digit in total (`"1"`, `"1.5"`, `"1."`,
`".5"` are valid; `""`, `"."`, `"1.2.3"` are not). -/
def mantissa? (cs : List Char) : Option ℚ :=
  match cs.splitOn '.' with
  | [ip] =>
      if ip.all Char.isDigit && !ip.isEmpty then some (natOf ip) else none
  | [ip, fp] =>
      if ip.all Char.isDigit && fp.all Char.isDigit && !(ip ++ fp).isEmpty then
        some ((natOf (ip ++ fp) : ℚ) / 10 ^ fp.length)
      else none
  | _ => none

/-- Parse the exponent part of a Python float literal: an optional sign
followed by at least one digit. -/
def expDigits? (cs : List Char) : Option ℤ :=
  match cs with
  | '+' :: t => if t.all Char.isDigit && !t.isEmpty then some (natOf t) else none
  | '-' :: t => if t.all Char.isDigit && !t.isEmpty then some (-(natOf t : ℤ)) else none
  | t => if t.all Char.isDigit && !t.isEmpty then some (natOf t) else none

/-- Model of Python's `float(text)` on a character list: strip surrounding
whitespace, take an optional sign, then `mantissa` optionally followed by
`e`/`E` and an exponent.  Returns `none` exactly where CPython raises
`ValueError` (within the modelled grammar). -/
def pyFloat? (cs0 : List Char) : Option ℚ :=
  let cs1 := trimChars cs0
  let sgn : ℚ × List Char :=
    match cs1 with
    | '+' :: t => (1, t)
    | '-' :: t => (-1, t)
    | t => (1, t)
  let cs2 := sgn.2.map (fun c => if c = 'E' then 'e' else c)
  match cs2.splitOn 'e' with
  | [m] => (mantissa? m).map (fun v => sgn.1 * v)
  | [m, e] => do
      let v ← mantissa? m
      let ex ← expDigits? e
      pure (sgn.1 * v * (10 : ℚ) ^ ex)
  | _ => none

/-- Embedding of `parse_money` (src/crypto_tracker.py lines 53–74):
empty input ↦ `None`; otherwise remove every `,`, `$` and `—` character,
strip whitespace, peel one case-sensitive trailing `K`/`M`/`B`/`T`
multiplier, convert the rest with `float` and scale; a `ValueError`
from `float` becomes `None`. -/
def parse_money (text : String) : Option ℚ :=
  if text = "" then none
  else
    let t := trimChars (text.toList.filter (fun c => !(c = ',' || c = '$' || c = '—')))
    let p : ℚ × List Char :=
      if t.getLast? = some 'K' then (1000, t.dropLast)
      else if t.getLast? = some 'M' then (1000000, t.dropLast)
      else if t.getLast? = some 'B' then (1000000000, t.dropLast)
      else if t.getLast? = some 'T' then (1000000000000, t.dropLast)
      else (1, t)
    (pyFloat? p.2).map (fun v => v * p.1)

/-- Embedding of `parse_percent` (src/crypto_tracker.py lines 77–85):
empty input ↦ `None`; otherwise remove every `%`, `+` and `,` character
(the source uses `str.replace`, which replaces all occurrences), strip
whitespace, and convert with `float`; `ValueError` becomes `None`. -/
def parse_percent (text : String) : Option ℚ :=
  if text = "" then none
  else
    let t := trimChars (text.toList.filter (fun c => !(c = '%' || c = '+' || c = ',')))
    pyFloat? t

/-- The magnitude-suffix table named by the spec: `{K: 1e3, M: 1e6, B: 1e9, T: 1e12}`. -/
def magnitude? (c : Char) : Option ℚ :=
  if c = 'K' then some 1000
  else if c = 'M' then some 1000000
  else if c = 'B' then some 1000000000
  else if c = 'T' then some 1000000000000
  else none

/-- Definition following the words of claim C1 (the spec's `parseMoney`):
strip `$`, thousands-separator commas and the em-dash placeholder;
recognise at most one case-sensitive trailing magnitude suffix from the
table (no suffix = factor 1); parse the remainder as a float and multiply
by the factor; `None` on empty input or a non-numeric remainder. -/
def parseMoney_spec (text : String) : Option ℚ :=
  if text = "" then none
  else
    let cs := (((text.toList.filter (fun c => c ≠ '$')).filter
        (fun c => c ≠ ',')).filter (fun c => c ≠ '—'))
    let t := trimChars cs
    match t.getLast? with
    | some c =>
        match magnitude? c with
        | some m => (pyFloat? t.dropLast).map (fun v => v * m)
        | none => pyFloat? t
    | none => pyFloat? t

/-- Definition following the words of claim C2 (the spec's `parsePercent`):
strip a leading sign character only when it is `+` (a leading `-` is
preserved), strip the percent symbol and thousands separators, parse the
remainder as a float; `None` on empty or unparseable input. -/
def parsePercent_claimed (text : String) : Option ℚ :=
  if text = "" then none
  else
    let cs := text.toList
    let cs1 := match cs with
      | '+' :: t => t
      | t => t
    let t := trimChars (cs1.filter (fun c => !(c = '%' || c = ',')))
    pyFloat? t

/-- Definition following the words of the amended claim C2: strip every
`+` character (not only a leading one), the percent symbol and thousands
separators — written with the strips in a different order from the
source's, so the equivalence below is not definitional. -/
def parsePercent_amended (text : String) : Option ℚ :=
  if text = "" then none
  else
    let cs := ((text.toList.filter (fun c => c ≠ '%')).filter
        (fun c => c ≠ '+')).filter (fun c => c ≠ ',')
    pyFloat? (trimChars cs)

/-! ## Data model -/

/-- One scraped market record (the dict built in `scrape_top_n`,
src/crypto_tracker.py lines 120–127).  Numeric fields are `none` when the
source text was unparseable. -/
structure MarketRecord where
  rank : String
  name : String
  symbol : String
  price : Option ℚ
  change_24h : Option ℚ
  market_cap : Option ℚ
deriving DecidableEq

/-! ## Filter views (src/crypto_tracker.py lines 145–158)

`df.sort_values(by="change_24h", ascending=False)` sorts by the key with
pandas' default `na_position="last"`: missing values go to the end of the
sorted frame whether the sort is ascending or descending.  We model this
with `List.insertionSort` under a total preorder in which, for the
descending (gainers) sort, a missing change compares as bottom, and for
the ascending (losers) sort as top — in both cases the missing-change
rows land after all present-change rows, exactly as pandas places NaN.
(`insertionSort` is stable; pandas' default quicksort fixes no tie order,
and no property proved here depends on the order of tied keys.) -/

/-- Sort key for the descending (gainers) sort: a missing `change_24h`
compares below every present value, so it sorts last in descending order
(pandas `na_position="last"`). -/
def gKey (r : MarketRecord) : WithBot ℚ :=
  match r.change_24h with
  | some q => (q : WithBot ℚ)
  | none => ⊥

/-- Sort key for the ascending (losers) sort: a missing `change_24h`
compares above every present value, so it sorts last in ascending order
(pandas `na_position="last"`). -/
def lKey (r : MarketRecord) : WithTop ℚ :=
  match r.change_24h with
  | some q => (q : WithTop ℚ)
  | none => ⊤

/-- `a` may precede `b` in the descending-by-change order. -/
def gainersRel (a b : MarketRecord) : Prop := gKey b ≤ gKey a

/-- `a` may precede `b` in the ascending-by-change order. -/
def losersRel (a b : MarketRecord) : Prop := lKey a ≤ lKey b

instance : DecidableRel gainersRel :=
  fun a b => inferInstanceAs (Decidable (gKey b ≤ gKey a))

instance : DecidableRel losersRel :=
  fun a b => inferInstanceAs (Decidable (lKey a ≤ lKey b))

instance : IsTotal MarketRecord gainersRel :=
  ⟨fun a b => le_total (gKey b) (gKey a)⟩

instance : IsTrans MarketRecord gainersRel :=
  ⟨fun _ _ _ hab hbc => le_trans hbc hab⟩

instance : IsTotal MarketRecord losersRel :=
  ⟨fun a b => le_total (lKey a) (lKey b)⟩

instance : IsTrans MarketRecord losersRel :=
  ⟨fun _ _ _ hab hbc => le_trans hab hbc⟩

/-- Embedding of `filter_top_gainers` (lines 145–146):
`df.sort_values(by="change_24h", ascending=False).head(top_k)`. -/
def filter_top_gainers (df : List MarketRecord) (top_k : Nat) : List MarketRecord :=
  (List.insertionSort gainersRel df).take top_k

/-- Embedding of `filter_top_losers` (lines 149–150):
`df.sort_values(by="change_24h", ascending=True).head(top_k)`. -/
def filter_top_losers (df : List MarketRecord) (top_k : Nat) : List MarketRecord :=
  (List.insertionSort losersRel df).take top_k

/-- Embedding of `filter_by_price` (lines 153–158).  Each given bound
keeps the rows whose price satisfies the comparison; in pandas a
comparison against NaN is `False`, so a row with a missing price is
dropped by whichever bound is applied first.  An absent bound applies no
filter at all. -/
def filter_by_price (df : List MarketRecord) (min_price max_price : Option ℚ) :
    List MarketRecord :=
  let df1 :=
    match min_price with
    | some m => df.filter (fun r =>
        match r.price with
        | some p => decide (m ≤ p)
        | none => false)
    | none => df
  match max_price with
  | some m => df1.filter (fun r =>
      match r.price with
      | some p => decide (p ≤ m)
      | none => false)
  | none => df1

/-- Number of records whose `change_24h` parsed successfully. -/
def countNonNullChange (df : List MarketRecord) : Nat :=
  df.countP (fun r => decide (r.change_24h ≠ none))

/-! ## Record extractor (src/crypto_tracker.py lines 89–131) -/

/-- One `<tr>` of the rendered table, as the extractor sees it: either its
`<td>` texts, or a row whose element access raises (e.g. a stale element —
the situation covered by the per-row `except` at line 129). -/
inductive RowData
  | cells (cs : List String)
  | broken
deriving DecidableEq

/-- The rendered page at the moment `scrape_top_n` runs: whether the
readiness wait (at least one `table tbody tr` AND a `$` in the fourth cell
of a row, lines 95–100) succeeds within the timeout, and the table rows. -/
structure PageState where
  ready : Bool
  rows : List RowData

/-- Field extraction for one well-formed row (lines 113–127); called only
when the row has at least 8 cells.  `cols[2]` holds name and symbol
separated by a newline; `raw_name[1] if len(raw_name) > 1 else ""`. -/
def extract_record (cs : List String) : MarketRecord :=
  let raw_name := ((cs.getD 2 "").trim).splitOn "\n"
  ⟨(cs.getD 1 "").trim,
   raw_name.getD 0 "",
   raw_name.getD 1 "",
   parse_money ((cs.getD 3 "").trim),
   parse_percent ((cs.getD 4 "").trim),
   parse_money ((cs.getD 7 "").trim)⟩

/-- Observable side effects of one `scrape_top_n` call. -/
inductive ScrapeEvent
  | screenshotSaved
  | rowWarning (i : Nat)
deriving DecidableEq

/-- The per-row loop of `scrape_top_n` (lines 108–130) over the enumerated
first-`n` rows: a row with fewer than 8 cells is skipped silently
(`continue`, line 112); a row whose element access raises is caught at
line 129 and logged with its index; every other row contributes a record. -/
def scrapeRows : List (Nat × RowData) → List MarketRecord × List ScrapeEvent
  | [] => ([], [])
  | (i, row) :: rest =>
    match row with
    | .broken =>
        let p := scrapeRows rest
        (p.1, .rowWarning i :: p.2)
    | .cells cs =>
        if cs.length < 8 then scrapeRows rest
        else
          let p := scrapeRows rest
          (extract_record cs :: p.1, p.2)

/-- Embedding of `scrape_top_n` (lines 89–131): on a timeout of the
readiness wait, save `debug_timeout.png` and return the empty list
(lines 101–104); otherwise process `rows[:n]` (line 108). -/
def scrape_top_n (page : PageState) (n : Nat) : List MarketRecord × List ScrapeEvent :=
  if page.ready then scrapeRows ((page.rows.take n).enum)
  else ([], [.screenshotSaved])

/-- The record a single row contributes, if any. -/
def rowRecord? : RowData → Option MarketRecord
  | .cells cs => if cs.length < 8 then none else some (extract_record cs)
  | .broken => none

/-! ## Persistence sink (src/crypto_tracker.py lines 135–142) -/

/-- One line of the CSV file: the header, or one data row with the
timestamp column appended by `save_to_csv`. -/
inductive CsvLine
  | header
  | row (r : MarketRecord) (timestamp_utc : String)
deriving DecidableEq

/-- A path-addressed file store; `none` means the path does not exist. -/
def FileStore : Type := String → Option (List CsvLine)

/-- Embedding of `save_to_csv` (lines 135–142): return unchanged on an
empty batch; otherwise stamp every record of the batch with the single
timestamp `now` (the one `datetime.now(timezone.utc).isoformat()` call at
line 140), and append in mode `"a"`, writing the header exactly when
`os.path.exists(output_file)` is false at this call (line 141). -/
def save_to_csv (records : List MarketRecord) (output_file : String) (now : String)
    (fs : FileStore) : FileStore :=
  if records = [] then fs
  else
    let rows := records.map (fun r => CsvLine.row r now)
    let newContents : List CsvLine :=
      match fs output_file with
      | some old => old ++ rows
      | none => CsvLine.header :: rows
    fun p => if p = output_file then some newContents else fs p

/-! ## Polling loop (src/crypto_tracker.py lines 162–214)

The loop body is modelled per iteration.  Each iteration's scrape either
returns records or raises; `WebDriverException` is a subclass of
`Exception`, so an automation-layer error raised *inside* the `try` of
lines 169–197 is caught by the `except Exception` handler at line 199
like any other cycle error — only a `WebDriverException` raised outside
the inner `try` (in practice: from `build_driver` at line 165) reaches
the outer handler at line 209 and ends the run. -/

/-- The CLI options the loop body consults (lines 180–197):
`--show-gainers`, `--show-losers`, `--min-price`, `--max-price`. -/
structure Config where
  show_gainers : Nat
  show_losers : Nat
  min_price : Option ℚ
  max_price : Option ℚ
deriving DecidableEq

/-- Outcome of one cycle's `scrape_top_n` call (line 170): a result list,
a generic `Exception`, or a `WebDriverException` (also an `Exception`). -/
inductive CycleResult
  | ok (records : List MarketRecord)
  | exc
  | wdExc
deriving DecidableEq

/-- Outcome of one inter-cycle `time.sleep` (line 204): it either
completes or is interrupted by `KeyboardInterrupt` (line 205). -/
inductive SleepResult
  | completed
  | interrupted
deriving DecidableEq

/-- The environment a run of the loop observes, indexed by iteration. -/
structure LoopEnv where
  cycle : Nat → CycleResult
  sleep : Nat → SleepResult

/-- Console/persistence events of the loop, in program order. -/
inductive Event
  | noData
  | persisted (k : Nat)
  | snapshotView
  | priceFilterView
  | priceFilterEmpty
  | gainersView (k : Nat)
  | losersView (k : Nat)
  | scrapeError
  | waiting
  | stoppedByUser
deriving DecidableEq

/-- Python truthiness of an optional float, as tested by
`if args.min_price or args.max_price:` at line 181: `None` and `0.0` are
falsy, every other float is truthy. -/
def truthyOpt (x : Option ℚ) : Bool :=
  match x with
  | none => false
  | some v => decide (v ≠ 0)

/-- The price-filter block of the loop body (lines 181–187): gated by the
truthiness test, then one of the two prints depending on emptiness of the
filtered frame. -/
def priceFilterEvents (c : Config) (records : List MarketRecord) : List Event :=
  if truthyOpt c.min_price || truthyOpt c.max_price then
    if filter_by_price records c.min_price c.max_price = [] then [.priceFilterEmpty]
    else [.priceFilterView]
  else []

/-- Events of one cycle body (lines 170–200).  An empty scrape prints only
the degraded-cycle notice (line 172) and persists nothing; a non-empty
scrape persists and renders the gated views (lines 174–197); any raised
`Exception` — `WebDriverException` included — is caught at line 199 and
logged. -/
def cycleEvents (c : Config) : CycleResult → List Event
  | .ok records =>
      if records = [] then [.noData]
      else
        [.persisted records.length, .snapshotView]
          ++ priceFilterEvents c records
          ++ (if c.show_gainers ≠ 0 then [.gainersView c.show_gainers] else [])
          ++ (if c.show_losers ≠ 0 then [.losersView c.show_losers] else [])
  | .exc => [.scrapeError]
  | .wdExc => [.scrapeError]

/-- How a simulated run ended: `userStop` via `KeyboardInterrupt` during
the sleep (lines 205–207), `wdFatal` via the outer handler (line 209),
`stillRunning` when the simulation fuel ran out with the loop alive. -/
inductive ExitKind
  | userStop
  | wdFatal
  | stillRunning
deriving DecidableEq

/-- The `while True` loop (lines 168–207), simulated for at most `fuel`
iterations starting at iteration `i`: each iteration runs the cycle body,
prints the waiting notice (line 202), then sleeps; an interrupt during the
sleep breaks out of the loop.  Returns the per-iteration event trace and
how the loop ended. -/
def runLoop (c : Config) (env : LoopEnv) : Nat → Nat → List (List Event) × ExitKind
  | 0, _ => ([], .stillRunning)
  | fuel + 1, i =>
    let evs := cycleEvents c (env.cycle i)
    match env.sleep i with
    | .interrupted => ([evs ++ [.waiting, .stoppedByUser]], .userStop)
    | .completed =>
        let rest := runLoop c env fuel (i + 1)
        ((evs ++ [.waiting]) :: rest.1, rest.2)

/-- Observable outcome of `main` (lines 162–214): the loop trace, the exit
kind, the number of `driver.quit()` calls that have run, and whether the
outer `WebDriver error` message was printed. -/
structure MainResult where
  trace : List (List Event)
  exitKind : ExitKind
  quits : Nat
  wdErrorLogged : Bool
deriving DecidableEq

/-- Embedding of `main` (lines 162–214).  `buildOk = false` models
`build_driver` raising `WebDriverException` at line 165: the outer handler
logs it, and the `finally` finds `driver` still `None`, so no `quit` runs
(cleanup tolerates the null handle).  With a live driver, the `finally`
calls `quit` exactly once as soon as the loop exits; while the loop is
still running (fuel exhausted) the `finally` has not run yet. -/
def mainRun (c : Config) (buildOk : Bool) (env : LoopEnv) (fuel : Nat) : MainResult :=
  if buildOk then
    let r := runLoop c env fuel 0
    ⟨r.1, r.2, if r.2 = .stillRunning then 0 else 1, false⟩
  else ⟨[], .wdFatal, 0, true⟩

/-! ## Helper lemmas -/

lemma moneyFilter_eq (l : List Char) :
    ((l.filter (fun c => c ≠ '$')).filter (fun c => c ≠ ',')).filter (fun c => c ≠ '—')
      = l.filter (fun c => !(c = ',' || c = '$' || c = '—')) := by
  rw [List.filter_filter, List.filter_filter]
  apply List.filter_congr
  intro c _
  by_cases h1 : c = '$' <;> by_cases h2 : c = ',' <;> by_cases h3 : c = '—' <;>
    simp [h1, h2, h3]

lemma percentFilter_eq (l : List Char) :
    ((l.filter (fun c => c ≠ '%')).filter (fun c => c ≠ '+')).filter (fun c => c ≠ ',')
      = l.filter (fun c => !(c = '%' || c = '+' || c = ',')) := by
  rw [List.filter_filter, List.filter_filter]
  apply List.filter_congr
  intro c _
  by_cases h1 : c = '%' <;> by_cases h2 : c = '+' <;> by_cases h3 : c = ',' <;>
    simp [h1, h2, h3]

lemma map_mul_one (o : Option ℚ) : o.map (fun v => v * 1) = o := by
  cases o <;> simp

lemma money_tail_eq (t : List Char) :
    (pyFloat?
        (if t.getLast? = some 'K' then (((1000 : ℚ), t.dropLast))
         else if t.getLast? = some 'M' then ((1000000 : ℚ), t.dropLast)
         else if t.getLast? = some 'B' then ((1000000000 : ℚ), t.dropLast)
         else if t.getLast? = some 'T' then ((1000000000000 : ℚ), t.dropLast)
         else ((1 : ℚ), t)).2).map
      (fun v =>
        v *
          (if t.getLast? = some 'K' then (((1000 : ℚ), t.dropLast))
           else if t.getLast? = some 'M' then ((1000000 : ℚ), t.dropLast)
           else if t.getLast? = some 'B' then ((1000000000 : ℚ), t.dropLast)
           else if t.getLast? = some 'T' then ((1000000000000 : ℚ), t.dropLast)
           else ((1 : ℚ), t)).1)
    = (match t.getLast? with
       | some c =>
           match magnitude? c with
           | some m => (pyFloat? t.dropLast).map (fun v => v * m)
           | none => pyFloat? t
       | none => pyFloat? t) := by
  rcases h : t.getLast? with _ | c
  · simp [h, map_mul_one]
  · by_cases hK : c = 'K'
    · simp [h, hK, magnitude?]
    · by_cases hM : c = 'M'
      · simp [h, hK, hM, magnitude?]
      · by_cases hB : c = 'B'
        · simp [h, hK, hM, hB, magnitude?]
        · by_cases hT : c = 'T'
          · simp [h, hK, hM, hB, hT, magnitude?]
          · simp [h, hK, hM, hB, hT, magnitude?, map_mul_one]

lemma pairwise_take_all {α : Type} {r : α → α → Prop} {P : α → Bool}
    (hmono : ∀ a b, r a b → P b = true → P a = true) :
    ∀ (l : List α) (k : Nat), l.Pairwise r → k ≤ l.countP P →
      ∀ x ∈ l.take k, P x = true := by
  intro l
  induction l with
  | nil => intro k _ _ x hx; simp at hx
  | cons a t ih =>
    intro k hp hk x hx
    rcases List.pairwise_cons.mp hp with ⟨ha, hpt⟩
    cases k with
    | zero => simp at hx
    | succ j =>
      by_cases hPa : P a = true
      · rw [List.take_succ_cons] at hx
        rcases List.mem_cons.mp hx with hxa | hxt
        · exact hxa ▸ hPa
        · have hcount : j ≤ t.countP P := by
            rw [List.countP_cons, if_pos hPa] at hk
            omega
          exact ih j hpt hcount x hxt
      · exfalso
        have hzero : t.countP P = 0 := by
          rw [List.countP_eq_zero]
          intro b hb hPb
          exact hPa (hmono a b (ha b hb) hPb)
        rw [List.countP_cons, if_neg hPa, hzero] at hk
        omega

lemma gKey_eq_bot_iff (r : MarketRecord) : gKey r = ⊥ ↔ r.change_24h = none := by
  cases h : r.change_24h <;> simp [gKey, h]

lemma lKey_eq_top_iff (r : MarketRecord) : lKey r = ⊤ ↔ r.change_24h = none := by
  cases h : r.change_24h <;> simp [lKey, h]

lemma gainers_mono : ∀ a b : MarketRecord, gainersRel a b →
    (fun x : MarketRecord => decide (x.change_24h ≠ none)) b = true →
    (fun x : MarketRecord => decide (x.change_24h ≠ none)) a = true := by
  intro a b hr hb
  simp only [decide_eq_true_eq] at hb ⊢
  intro hna
  apply hb
  have hob : gKey a = ⊥ := (gKey_eq_bot_iff a).mpr hna
  have hb' : gKey b ≤ ⊥ := hob ▸ hr
  exact (gKey_eq_bot_iff b).mp (le_bot_iff.mp hb')

lemma losers_mono : ∀ a b : MarketRecord, losersRel a b →
    (fun x : MarketRecord => decide (x.change_24h ≠ none)) b = true →
    (fun x : MarketRecord => decide (x.change_24h ≠ none)) a = true := by
  intro a b hr hb
  simp only [decide_eq_true_eq] at hb ⊢
  intro hna
  apply hb
  have hoa : lKey a = ⊤ := (lKey_eq_top_iff a).mpr hna
  have hb' : ⊤ ≤ lKey b := hoa ▸ hr
  exact (lKey_eq_top_iff b).mp (top_le_iff.mp hb')

/-- The record-selection predicate of the amended claim C4: price parsed
and within the given inclusive bounds (an absent bound is unbounded on
that side); a record without a price never satisfies a bounded filter. -/
def boundedPred (min_price max_price : Option ℚ) (r : MarketRecord) : Bool :=
  match r.price with
  | some p =>
      (match min_price with
       | some m => decide (m ≤ p)
       | none => true)
      && (match max_price with
          | some m => decide (p ≤ m)
          | none => true)
  | none => false

/-! ## Concrete instances used in counterexamples and witnesses -/

def recPos : MarketRecord := ⟨"1", "Bitcoin", "BTC", some 3, some 2, some 5⟩

def recNullChange : MarketRecord := ⟨"2", "NoChange", "NOC", some 2, none, some 2⟩

def recNullPrice : MarketRecord := ⟨"3", "NoPrice", "NOP", none, some 1, none⟩

def dfC3 : List MarketRecord := [recPos, recNullChange]

/-! ## Claim theorems -/

/-- **C1** (confirmed).  `parse_money` behaves exactly as the spec's
`parseMoney`: it strips `$`, thousands-separator commas and the em-dash
placeholder, recognises at most one case-sensitive trailing magnitude
suffix from {K: 1e3, M: 1e6, B: 1e9, T: 1e12} (no suffix = factor 1),
parses the remainder as a float, multiplies by the factor, and yields
`none` on empty input or any non-numeric remainder (it is a total
function, so it never raises); the spec's five examples hold. -/
theorem c1_parse_money_spec :
    (∀ text, parse_money text = parseMoney_spec text)
  ∧ parse_money "$64,000" = some 64000
  ∧ parse_money "$1.2B" = some 1200000000
  ∧ parse_money "—" = none
  ∧ parse_money "" = none
  ∧ parse_money "$0.5K" = some 500 := by
  refine ⟨fun text => ?_, ?_, ?_, ?_, ?_, ?_⟩
  · by_cases h : text = ""
    · simp [parse_money, parseMoney_spec, h]
    · unfold parse_money parseMoney_spec
      rw [if_neg h, if_neg h]
      dsimp only
      rw [moneyFilter_eq]
      generalize trimChars (text.toList.filter fun c => !(c = ',' || c = '$' || c = '—')) = t
      exact money_tail_eq t
  · simp [parse_money, trimChars, pyFloat?, mantissa?, natOf,
      List.splitOn, List.splitOnP, List.splitOnP.go]
  · simp [parse_money, trimChars, pyFloat?, mantissa?, natOf,
      List.splitOn, List.splitOnP, List.splitOnP.go]
    norm_num
  · simp [parse_money, trimChars, pyFloat?, mantissa?, natOf,
      List.splitOn, List.splitOnP, List.splitOnP.go]
  · simp [parse_money]
  · simp [parse_money, trimChars, pyFloat?, mantissa?, natOf,
      List.splitOn, List.splitOnP, List.splitOnP.go]
    norm_num

/-- **C2** (counterexample).  The claim says `parse_percent` strips a sign
character only when it is a *leading* `+`; the source instead removes
every `+` via `str.replace`.  On `"1+2"` the code returns `12.0`, while
the claimed behaviour leaves `"1+2"`, which is not a float, so the
claimed result is `None`. -/
theorem c2_counterexample :
    parse_percent "1+2" = some 12 ∧ parsePercent_claimed "1+2" = none := by
  constructor
  · simp [parse_percent, trimChars, pyFloat?, mantissa?, natOf,
      List.splitOn, List.splitOnP, List.splitOnP.go]
  · simp [parsePercent_claimed, trimChars, pyFloat?, mantissa?, natOf,
      List.splitOn, List.splitOnP, List.splitOnP.go]

/-- **C2** (amended and proved).  `parse_percent` removes *every* `+`
character (not only a leading one), together with the percent symbol and
thousands separators, and parses the remainder as a float; a `-` anywhere
is preserved, so the sign carries into the value; `none` on empty or
unparseable input (total, never raises).  The spec's examples hold. -/
theorem c2_parse_percent_amended :
    (∀ text, parse_percent text = parsePercent_amended text)
  ∧ parse_percent "+3.25%" = some 3.25
  ∧ parse_percent "-1.5%" = some (-1.5)
  ∧ parse_percent "" = none := by
  refine ⟨fun text => ?_, ?_, ?_, ?_⟩
  · by_cases h : text = ""
    · simp [parse_percent, parsePercent_amended, h]
    · unfold parse_percent parsePercent_amended
      rw [if_neg h, if_neg h]
      dsimp only
      rw [percentFilter_eq]
  · simp [parse_percent, trimChars, pyFloat?, mantissa?, natOf,
      List.splitOn, List.splitOnP, List.splitOnP.go]
    norm_num
  · simp [parse_percent, trimChars, pyFloat?, mantissa?, natOf,
      List.splitOn, List.splitOnP, List.splitOnP.go]
    norm_num
  · simp [parse_percent]

/-- **C3** (counterexample).  The claim says `topGainers(s, k)` has length
`min(k, count of records with non-null change_24h)`.  On a snapshot of two
records, one with a null change, and `k = 2`, pandas `head(2)` of the
sorted frame returns both rows (NaN sorts last but is not dropped), so the
length is `2`, not `min(2, 1) = 1`. -/
theorem c3_counterexample :
    (filter_top_gainers dfC3 2).length ≠ min 2 (countNonNullChange dfC3) := by
  have h1 : (filter_top_gainers dfC3 2).length = 2 := by
    unfold filter_top_gainers
    rw [List.length_take, List.length_insertionSort]
    rfl
  have h2 : countNonNullChange dfC3 = 1 := by decide
  rw [h1, h2]
  decide

/-- **C3** (amended and proved).  `topGainers(s, k)` returns the first `k`
entries of a stable sort of `s` descending by `change_24h` and has length
`min(k, length of s)` (null-change records are sorted last, not dropped);
`topLosers` is symmetric with an ascending sort.  Null-change records sort
as lowest for gainers and as highest for losers, so they are excluded from
the top-k result whenever at least `k` non-null-change records exist. -/
theorem c3_filters_amended : ∀ (df : List MarketRecord) (k : Nat),
    (filter_top_gainers df k).length = min k df.length
  ∧ List.Sorted gainersRel (filter_top_gainers df k)
  ∧ (k ≤ countNonNullChange df → ∀ r ∈ filter_top_gainers df k, r.change_24h ≠ none)
  ∧ (filter_top_losers df k).length = min k df.length
  ∧ List.Sorted losersRel (filter_top_losers df k)
  ∧ (k ≤ countNonNullChange df → ∀ r ∈ filter_top_losers df k, r.change_24h ≠ none) := by
  intro df k
  refine ⟨?_, ?_, ?_, ?_, ?_, ?_⟩
  · simp [filter_top_gainers]
  · unfold filter_top_gainers
    exact List.Pairwise.sublist (List.take_sublist _ _)
      (List.sorted_insertionSort gainersRel df)
  · intro hk r hr
    have hperm := (List.perm_insertionSort gainersRel df).countP_eq
      (fun x => decide (x.change_24h ≠ none))
    have hcount : k ≤ (List.insertionSort gainersRel df).countP
        (fun x => decide (x.change_24h ≠ none)) := by
      rw [hperm]; exact hk
    have := pairwise_take_all gainers_mono (List.insertionSort gainersRel df) k
      (List.sorted_insertionSort gainersRel df) hcount r hr
    simpa using this
  · simp [filter_top_losers]
  · unfold filter_top_losers
    exact List.Pairwise.sublist (List.take_sublist _ _)
      (List.sorted_insertionSort losersRel df)
  · intro hk r hr
    have hperm := (List.perm_insertionSort losersRel df).countP_eq
      (fun x => decide (x.change_24h ≠ none))
    have hcount : k ≤ (List.insertionSort losersRel df).countP
        (fun x => decide (x.change_24h ≠ none)) := by
      rw [hperm]; exact hk
    have := pairwise_take_all losers_mono (List.insertionSort losersRel df) k
      (List.sorted_insertionSort losersRel df) hcount r hr
    simpa using this

/-- Witness for `c3_filters_amended` at `df = dfC3`, `k = 1`. -/
theorem c3_filters_amended_witness :
    (1 ≤ countNonNullChange dfC3
      ∧ ∀ r ∈ filter_top_gainers dfC3 1, r.change_24h ≠ none)
  ∧ (1 ≤ countNonNullChange dfC3
      ∧ ∀ r ∈ filter_top_losers dfC3 1, r.change_24h ≠ none) :=
  ⟨⟨by decide, (c3_filters_amended dfC3 1).2.2.1 (by decide)⟩,
   ⟨by decide, (c3_filters_amended dfC3 1).2.2.2.2.2 (by decide)⟩⟩

/-- **C4** (counterexample).  The claim says `filter_by_price` returns
exactly the records with a non-null price inside the bounds, for every
choice of optional bounds.  With both bounds absent, the source applies no
filter at all and returns the frame unchanged, null-price records
included. -/
theorem c4_counterexample :
    filter_by_price [recNullPrice] none none = [recNullPrice]
  ∧ recNullPrice.price = none :=
  ⟨rfl, rfl⟩

/-- **C4** (amended and proved).  When at least one bound is given,
`filter_by_price` returns exactly the records whose price is non-null and
satisfies `min <= price <= max` (inclusive; a missing bound leaves that
side unbounded), in snapshot order; records with a null price or outside
the bounds are excluded.  With no bounds given, the snapshot is returned
unchanged (null-price records included). -/
theorem c4_filter_by_price_amended :
    ∀ (df : List MarketRecord) (min_price max_price : Option ℚ),
      (min_price = none → max_price = none →
        filter_by_price df min_price max_price = df)
    ∧ ((min_price ≠ none ∨ max_price ≠ none) →
        filter_by_price df min_price max_price
          = df.filter (boundedPred min_price max_price)) := by
  intro df mn mx
  constructor
  · intro h1 h2
    subst h1; subst h2
    rfl
  · intro h
    rcases mn with _ | m
    · rcases mx with _ | M
      · rcases h with h | h <;> exact absurd rfl h
      · show df.filter (fun r =>
            match r.price with
            | some p => decide (p ≤ M)
            | none => false) = df.filter (boundedPred none (some M))
        apply List.filter_congr
        intro x _
        cases hx : x.price <;> simp [boundedPred, hx]
    · rcases mx with _ | M
      · show df.filter (fun r =>
            match r.price with
            | some p => decide (m ≤ p)
            | none => false) = df.filter (boundedPred (some m) none)
        apply List.filter_congr
        intro x _
        cases hx : x.price <;> simp [boundedPred, hx]
      · show (df.filter (fun r =>
            match r.price with
            | some p => decide (m ≤ p)
            | none => false)).filter (fun r =>
            match r.price with
            | some p => decide (p ≤ M)
            | none => false) = df.filter (boundedPred (some m) (some M))
        rw [List.filter_filter]
        apply List.filter_congr
        intro x _
        cases hx : x.price <;> simp [boundedPred, hx, Bool.and_comm]

/-- Witness for `c4_filter_by_price_amended`: both conjuncts at concrete
inputs. -/
theorem c4_filter_by_price_amended_witness :
    (((some (1 : ℚ) : Option ℚ) ≠ none ∨ (none : Option ℚ) ≠ none)
      ∧ filter_by_price [recPos, recNullPrice] (some 1) none
          = [recPos, recNullPrice].filter (boundedPred (some 1) none))
  ∧ (((none : Option ℚ) = none) ∧ ((none : Option ℚ) = none)
      ∧ filter_by_price [recNullPrice] none none = [recNullPrice]) :=
  ⟨⟨Or.inl (by decide),
    (c4_filter_by_price_amended [recPos, recNullPrice] (some 1) none).2
      (Or.inl (by decide))⟩,
   ⟨rfl, rfl, (c4_filter_by_price_amended [recNullPrice] none none).1 rfl rfl⟩⟩

/-- The empty file store: no path exists. -/
def fsEmpty : FileStore := fun _ => none

/-- **C5** (confirmed).  `save_to_csv` is a no-op on an empty batch;
otherwise it stamps every row of the batch with the one timestamp taken
for the call (cycle-level, not per-record), appends in append mode, and
emits the header exactly when the path does not exist at that call — the
existence check is re-evaluated per call, so a second append to the same
path adds rows without repeating the header (the header occurs once). -/
theorem c5_save_to_csv :
    ∀ (records r1 r2 : List MarketRecord) (path now t1 t2 : String) (fs : FileStore),
      (records = [] → save_to_csv records path now fs = fs)
    ∧ (records ≠ [] → fs path = none →
        save_to_csv records path now fs path
          = some (CsvLine.header :: records.map (fun r => CsvLine.row r now)))
    ∧ (records ≠ [] → ∀ old, fs path = some old →
        save_to_csv records path now fs path
          = some (old ++ records.map (fun r => CsvLine.row r now)))
    ∧ (∀ p, p ≠ path → save_to_csv records path now fs p = fs p)
    ∧ (r1 ≠ [] → r2 ≠ [] → fs path = none →
        save_to_csv r2 path t2 (save_to_csv r1 path t1 fs) path
          = some (CsvLine.header :: (r1.map (fun r => CsvLine.row r t1)
              ++ r2.map (fun r => CsvLine.row r t2)))
        ∧ (CsvLine.header :: (r1.map (fun r => CsvLine.row r t1)
              ++ r2.map (fun r => CsvLine.row r t2))).count CsvLine.header = 1) := by
  intro records r1 r2 path now t1 t2 fs
  refine ⟨?_, ?_, ?_, ?_, ?_⟩
  · intro h
    simp [save_to_csv, h]
  · intro h hfs
    simp [save_to_csv, h, hfs]
  · intro h old hfs
    simp [save_to_csv, h, hfs]
  · intro p hp
    unfold save_to_csv
    split
    · rfl
    · simp [hp]
  · intro h1 h2 hfs
    constructor
    · have first : save_to_csv r1 path t1 fs path
          = some (CsvLine.header :: r1.map (fun r => CsvLine.row r t1)) := by
        simp [save_to_csv, h1, hfs]
      generalize hg : save_to_csv r1 path t1 fs = fs1
      rw [hg] at first
      simp [save_to_csv, h2, first]
    · have hnot : CsvLine.header ∉ (r1.map (fun r => CsvLine.row r t1)
          ++ r2.map (fun r => CsvLine.row r t2)) := by
        simp [List.mem_append, List.mem_map]
      rw [List.count_cons_self, List.count_eq_zero.mpr hnot]

/-- Witness for `c5_save_to_csv`: the empty-batch conjunct and the
fresh-path conjunct at concrete inputs. -/
theorem c5_save_to_csv_witness :
    (([] : List MarketRecord) = []
      ∧ save_to_csv [] "crypto_prices.csv" "T0" fsEmpty = fsEmpty)
  ∧ ([recPos] ≠ ([] : List MarketRecord)
      ∧ fsEmpty "crypto_prices.csv" = none
      ∧ save_to_csv [recPos] "crypto_prices.csv" "T0" fsEmpty "crypto_prices.csv"
          = some (CsvLine.header :: [recPos].map (fun r => CsvLine.row r "T0"))) :=
  ⟨⟨rfl, (c5_save_to_csv [] [recPos] [recPos] "crypto_prices.csv" "T0" "T0" "T0"
      fsEmpty).1 rfl⟩,
   ⟨by decide, rfl,
    (c5_save_to_csv [recPos] [recPos] [recPos] "crypto_prices.csv" "T0" "T0" "T0"
      fsEmpty).2.1 (by decide) rfl⟩⟩

lemma scrapeRows_records : ∀ l : List (Nat × RowData),
    (scrapeRows l).1 = l.filterMap (fun p => rowRecord? p.2) := by
  intro l
  induction l with
  | nil => rfl
  | cons hd tl ih =>
    rcases hd with ⟨i, row⟩
    cases row with
    | broken => simp [scrapeRows, rowRecord?, ih]
    | cells cs =>
      by_cases h : cs.length < 8
      · simp [scrapeRows, rowRecord?, h, ih]
      · simp [scrapeRows, rowRecord?, h, ih]

lemma scrapeRows_events : ∀ l : List (Nat × RowData),
    (scrapeRows l).2
      = (l.filter (fun p => decide (p.2 = RowData.broken))).map
          (fun p => ScrapeEvent.rowWarning p.1) := by
  intro l
  induction l with
  | nil => rfl
  | cons hd tl ih =>
    rcases hd with ⟨i, row⟩
    cases row with
    | broken => simp [scrapeRows, ih]
    | cells cs =>
      by_cases h : cs.length < 8
      · simp [scrapeRows, h, ih]
      · simp [scrapeRows, h, ih]

/-- **C7** (confirmed).  When the page is ready, `scrape_top_n` processes
at most the first `n` rows in display order: the records are exactly the
in-order extraction of those of the first `n` rows that have at least 8
cells and extract cleanly; a row with fewer cells is skipped with no
event; every row whose element access raises produces a warning carrying
its row index, and processing of the remaining rows is unaffected (one
bad row never aborts the cycle). -/
theorem c7_scrape_rows :
    ∀ (page : PageState) (n : Nat), page.ready = true →
      (scrape_top_n page n).1
          = ((page.rows.take n).enum).filterMap (fun p => rowRecord? p.2)
      ∧ (scrape_top_n page n).2
          = (((page.rows.take n).enum).filter
              (fun p => decide (p.2 = RowData.broken))).map
              (fun p => ScrapeEvent.rowWarning p.1) := by
  intro page n h
  have hsc : scrape_top_n page n = scrapeRows ((page.rows.take n).enum) := by
    unfold scrape_top_n
    rw [h]
    rfl
  rw [hsc]
  exact ⟨scrapeRows_records _, scrapeRows_events _⟩

/-- A concrete ready page: one raising row, then one well-formed row. -/
def pageW : PageState :=
  ⟨true, [RowData.broken,
          RowData.cells ["", "1", "Bitcoin\nBTC", "$3", "+2%", "", "", "$5"]]⟩

/-- Witness for `c7_scrape_rows` at `pageW`, `n = 2`. -/
theorem c7_scrape_rows_witness :
    pageW.ready = true
  ∧ (scrape_top_n pageW 2).1
      = ((pageW.rows.take 2).enum).filterMap (fun p => rowRecord? p.2)
  ∧ (scrape_top_n pageW 2).2
      = (((pageW.rows.take 2).enum).filter
          (fun p => decide (p.2 = RowData.broken))).map
          (fun p => ScrapeEvent.rowWarning p.1) :=
  ⟨rfl, (c7_scrape_rows pageW 2 rfl).1, (c7_scrape_rows pageW 2 rfl).2⟩

lemma runLoop_length_pos (c : Config) (env : LoopEnv) (f s : Nat) :
    1 ≤ (runLoop c env (f + 1) s).1.length := by
  cases h : env.sleep s <;> simp [runLoop, h]

lemma runLoop_no_wdFatal (c : Config) (env : LoopEnv) :
    ∀ (fuel s : Nat), (runLoop c env fuel s).2 ≠ ExitKind.wdFatal := by
  intro fuel
  induction fuel with
  | zero =>
    intro s
    simp [runLoop]
  | succ f ih =>
    intro s
    cases h : env.sleep s
    · simp only [runLoop, h]
      exact ih (s + 1)
    · simp [runLoop, h]

lemma runLoop_interrupted (c : Config) (env : LoopEnv) :
    ∀ (i fuel start : Nat), (∀ j, j < i → env.sleep (start + j) = .completed) →
      env.sleep (start + i) = .interrupted → i < fuel →
      (runLoop c env fuel start).2 = ExitKind.userStop
    ∧ (runLoop c env fuel start).1.length = i + 1 := by
  intro i
  induction i with
  | zero =>
    intro fuel start _ hint hfuel
    cases fuel with
    | zero => omega
    | succ f =>
      have h0 : env.sleep start = .interrupted := by simpa using hint
      exact ⟨by simp [runLoop, h0], by simp [runLoop, h0]⟩
  | succ i ih =>
    intro fuel start hs hint hfuel
    cases fuel with
    | zero => omega
    | succ f =>
      have h0 : env.sleep start = .completed := by simpa using hs 0 (by omega)
      have tail := ih f (start + 1)
        (fun j hj => by
          have := hs (j + 1) (by omega)
          rwa [show start + (j + 1) = start + 1 + j by omega] at this)
        (by rwa [show start + (i + 1) = start + 1 + i by omega] at hint)
        (by omega)
      refine ⟨?_, ?_⟩
      · simp [runLoop, h0, tail.1]
      · simp [runLoop, h0, tail.2]

lemma runLoop_entry (c : Config) (env : LoopEnv) :
    ∀ (i fuel start : Nat), (∀ j, j ≤ i → env.sleep (start + j) = .completed) →
      i + 1 < fuel →
      (runLoop c env fuel start).1.getD i []
          = cycleEvents c (env.cycle (start + i)) ++ [Event.waiting]
    ∧ i + 2 ≤ (runLoop c env fuel start).1.length := by
  intro i
  induction i with
  | zero =>
    intro fuel start hs hfuel
    cases fuel with
    | zero => omega
    | succ f =>
      have h0 : env.sleep start = .completed := by simpa using hs 0 (by omega)
      cases f with
      | zero => omega
      | succ g =>
        have hpos := runLoop_length_pos c env g (start + 1)
        refine ⟨?_, ?_⟩
        · simp [runLoop, h0]
        · have hcons : (runLoop c env (g + 1 + 1) start).1
              = (cycleEvents c (env.cycle start) ++ [Event.waiting])
                  :: (runLoop c env (g + 1) (start + 1)).1 := by
            simp [runLoop, h0]
          rw [hcons, List.length_cons]
          omega
  | succ i ih =>
    intro fuel start hs hfuel
    cases fuel with
    | zero => omega
    | succ f =>
      have h0 : env.sleep start = .completed := by simpa using hs 0 (by omega)
      have tail := ih f (start + 1)
        (fun j hj => by
          have := hs (j + 1) (by omega)
          rwa [show start + (j + 1) = start + 1 + j by omega] at this)
        (by omega)
      refine ⟨?_, ?_⟩
      · have harg : start + (i + 1) = start + 1 + i := by omega
        rw [harg]
        simp only [runLoop, h0, List.getD_cons_succ]
        exact tail.1
      · have := tail.2
        simp only [runLoop, h0, List.length_cons]
        omega

/-- A page whose readiness wait times out. -/
def pageTimeout : PageState := ⟨false, []⟩

/-- A run in which every cycle scrapes an empty result. -/
def envC6 : LoopEnv := ⟨fun _ => .ok [], fun _ => .completed⟩

/-- CLI defaults with every optional view disabled. -/
def cfg0 : Config := ⟨0, 0, none, none⟩

/-- **C6** (confirmed).  A cycle whose readiness condition is not met
within the timeout captures a diagnostic screenshot and returns the empty
sequence; the loop then prints the degraded-cycle notice, persists
nothing (its trace entry holds only `noData` and the waiting notice — no
`persisted` event), and proceeds to sleep and run the next cycle instead
of exiting. -/
theorem c6_timeout_contained :
    (∀ (page : PageState) (n : Nat), page.ready = false →
        scrape_top_n page n = ([], [ScrapeEvent.screenshotSaved]))
  ∧ (∀ (c : Config) (env : LoopEnv) (fuel i : Nat),
        env.cycle i = .ok [] → (∀ j, j ≤ i → env.sleep j = .completed) →
        i + 1 < fuel →
        (mainRun c true env fuel).trace.getD i [] = [Event.noData, Event.waiting]
      ∧ i + 2 ≤ (mainRun c true env fuel).trace.length) := by
  constructor
  · intro page n h
    unfold scrape_top_n
    rw [h]
    rfl
  · intro c env fuel i hcycle hs hfuel
    have hentry := runLoop_entry c env i fuel 0
      (fun j hj => by simpa using hs j hj) hfuel
    have h1 : (mainRun c true env fuel).trace = (runLoop c env fuel 0).1 := by
      simp [mainRun]
    refine ⟨?_, ?_⟩
    · rw [h1]
      have := hentry.1
      rw [Nat.zero_add] at this
      rw [this, hcycle]
      rfl
    · rw [h1]
      exact hentry.2

/-- Witness for `c6_timeout_contained` at concrete inputs. -/
theorem c6_timeout_contained_witness :
    (pageTimeout.ready = false
      ∧ scrape_top_n pageTimeout 10 = ([], [ScrapeEvent.screenshotSaved]))
  ∧ (envC6.cycle 0 = .ok []
      ∧ (∀ j, j ≤ 0 → envC6.sleep j = .completed)
      ∧ 0 + 1 < 3
      ∧ (mainRun cfg0 true envC6 3).trace.getD 0 [] = [Event.noData, Event.waiting]
      ∧ 0 + 2 ≤ (mainRun cfg0 true envC6 3).trace.length) :=
  ⟨⟨rfl, c6_timeout_contained.1 pageTimeout 10 rfl⟩,
   ⟨rfl, fun _ _ => rfl, by omega,
    (c6_timeout_contained.2 cfg0 envC6 3 0 rfl (fun _ _ => rfl) (by omega)).1,
    (c6_timeout_contained.2 cfg0 envC6 3 0 rfl (fun _ _ => rfl) (by omega)).2⟩⟩

/-- A run whose first cycle raises `WebDriverException` and whose later
cycles scrape an empty result. -/
def envC8 : LoopEnv := ⟨fun j => if j = 0 then .wdExc else .ok [], fun _ => .completed⟩

/-- **C8** (counterexample).  The claim says a `WebDriverException`
raised while the tracker is running terminates the polling loop.  But
`WebDriverException` subclasses `Exception`, so inside a cycle it is
caught by the per-cycle `except Exception` handler (line 199): in the run
`envC8`, cycle 0 raises `WebDriverException`, yet the trace shows the
error logged, the waiting notice printed, and cycle 1 executed — the loop
is still running, and it never exits through the outer
`except WebDriverException` handler. -/
theorem c8_counterexample :
    envC8.cycle 0 = CycleResult.wdExc
  ∧ (mainRun cfg0 true envC8 2).trace
      = [[Event.scrapeError, Event.waiting], [Event.noData, Event.waiting]]
  ∧ (mainRun cfg0 true envC8 2).exitKind = ExitKind.stillRunning := by
  refine ⟨rfl, ?_, ?_⟩ <;> rfl

/-- **C8** (amended and proved).  A `WebDriverException` is fatal only
when raised during session acquisition (`build_driver`): then the loop
never starts, the error is logged, cleanup runs with the null handle (no
`quit`), and the process exits.  A `WebDriverException` raised inside a
polling cycle is caught by the per-cycle `Exception` handler like any
other cycle error: it is logged and the loop continues with the next
cycle — the loop never exits through the outer fatal path while cycles
are being run. -/
theorem c8_wdexc_amended :
    (∀ (c : Config) (env : LoopEnv) (fuel : Nat),
        (mainRun c false env fuel).exitKind = ExitKind.wdFatal
      ∧ (mainRun c false env fuel).wdErrorLogged = true
      ∧ (mainRun c false env fuel).quits = 0
      ∧ (mainRun c false env fuel).trace = [])
  ∧ (∀ (c : Config) (env : LoopEnv) (fuel i : Nat),
        env.cycle i = .wdExc → (∀ j, j ≤ i → env.sleep j = .completed) →
        i + 1 < fuel →
        (mainRun c true env fuel).trace.getD i []
            = [Event.scrapeError, Event.waiting]
      ∧ i + 2 ≤ (mainRun c true env fuel).trace.length
      ∧ (mainRun c true env fuel).exitKind ≠ ExitKind.wdFatal) := by
  constructor
  · intro c env fuel
    exact ⟨rfl, rfl, rfl, rfl⟩
  · intro c env fuel i hcycle hs hfuel
    have hentry := runLoop_entry c env i fuel 0
      (fun j hj => by simpa using hs j hj) hfuel
    have h1 : (mainRun c true env fuel).trace = (runLoop c env fuel 0).1 := by
      simp [mainRun]
    have h2 : (mainRun c true env fuel).exitKind = (runLoop c env fuel 0).2 := by
      simp [mainRun]
    refine ⟨?_, ?_, ?_⟩
    · rw [h1]
      have := hentry.1
      rw [Nat.zero_add] at this
      rw [this, hcycle]
      rfl
    · rw [h1]
      exact hentry.2
    · rw [h2]
      exact runLoop_no_wdFatal c env fuel 0

/-- A run in which every cycle raises `WebDriverException`. -/
def envC8b : LoopEnv := ⟨fun _ => .wdExc, fun _ => .completed⟩

/-- Witness for `c8_wdexc_amended` at concrete inputs. -/
theorem c8_wdexc_amended_witness :
    (envC8b.cycle 0 = .wdExc
      ∧ (∀ j, j ≤ 0 → envC8b.sleep j = .completed)
      ∧ 0 + 1 < 3
      ∧ (mainRun cfg0 true envC8b 3).trace.getD 0 []
          = [Event.scrapeError, Event.waiting]
      ∧ 0 + 2 ≤ (mainRun cfg0 true envC8b 3).trace.length
      ∧ (mainRun cfg0 true envC8b 3).exitKind ≠ ExitKind.wdFatal)
  ∧ (mainRun cfg0 false envC8b 3).quits = 0 :=
  ⟨⟨rfl, fun _ _ => rfl, by omega,
    (c8_wdexc_amended.2 cfg0 envC8b 3 0 rfl (fun _ _ => rfl) (by omega)).1,
    (c8_wdexc_amended.2 cfg0 envC8b 3 0 rfl (fun _ _ => rfl) (by omega)).2.1,
    (c8_wdexc_amended.2 cfg0 envC8b 3 0 rfl (fun _ _ => rfl) (by omega)).2.2⟩,
   (c8_wdexc_amended.1 cfg0 envC8b 3).2.2.1⟩

/-- **C9** (confirmed).  A `KeyboardInterrupt` delivered during the
inter-cycle sleep makes the loop exit cleanly at that very sleep (the
trace stops at iteration `i`: exactly `i + 1` iterations, no further
cycle), with no error reported (`userStop`, not the fatal exit; no
WebDriver error logged), and the driver is quit exactly once on that exit
path; on every path the quit count is at most one, and when session
acquisition failed the cleanup still runs with the null handle and calls
no quit. -/
theorem c9_interrupt_clean_exit :
    (∀ (c : Config) (env : LoopEnv) (fuel i : Nat),
        (∀ j, j < i → env.sleep j = .completed) → env.sleep i = .interrupted →
        i < fuel →
        (mainRun c true env fuel).exitKind = ExitKind.userStop
      ∧ (mainRun c true env fuel).quits = 1
      ∧ (mainRun c true env fuel).wdErrorLogged = false
      ∧ (mainRun c true env fuel).trace.length = i + 1)
  ∧ (∀ (c : Config) (buildOk : Bool) (env : LoopEnv) (fuel : Nat),
        (mainRun c buildOk env fuel).quits ≤ 1)
  ∧ (∀ (c : Config) (env : LoopEnv) (fuel : Nat),
        (mainRun c false env fuel).quits = 0
      ∧ (mainRun c false env fuel).exitKind = ExitKind.wdFatal) := by
  refine ⟨?_, ?_, ?_⟩
  · intro c env fuel i hs hint hfuel
    have h := runLoop_interrupted c env i fuel 0
      (fun j hj => by simpa using hs j hj) (by simpa using hint) hfuel
    refine ⟨?_, ?_, ?_, ?_⟩ <;> simp [mainRun, h.1, h.2]
  · intro c b env fuel
    unfold mainRun
    split
    · dsimp only
      split <;> omega
    · simp
  · intro c env fuel
    exact ⟨rfl, rfl⟩

/-- A run whose second sleep is interrupted by the user. -/
def envC9 : LoopEnv :=
  ⟨fun _ => .ok [], fun j => if j = 1 then .interrupted else .completed⟩

/-- Witness for `c9_interrupt_clean_exit` at concrete inputs. -/
theorem c9_interrupt_clean_exit_witness :
    ((∀ j, j < 1 → envC9.sleep j = .completed)
      ∧ envC9.sleep 1 = .interrupted
      ∧ 1 < 5
      ∧ (mainRun cfg0 true envC9 5).exitKind = ExitKind.userStop
      ∧ (mainRun cfg0 true envC9 5).quits = 1
      ∧ (mainRun cfg0 true envC9 5).wdErrorLogged = false
      ∧ (mainRun cfg0 true envC9 5).trace.length = 1 + 1)
  ∧ (mainRun cfg0 false envC9 5).quits = 0 :=
  ⟨⟨fun j hj => by
      have hj0 : j = 0 := by omega
      subst hj0
      rfl,
    rfl, by omega,
    (c9_interrupt_clean_exit.1 cfg0 envC9 5 1
      (fun j hj => by
        have hj0 : j = 0 := by omega
        subst hj0
        rfl) rfl (by omega)).1,
    (c9_interrupt_clean_exit.1 cfg0 envC9 5 1
      (fun j hj => by
        have hj0 : j = 0 := by omega
        subst hj0
        rfl) rfl (by omega)).2.1,
    (c9_interrupt_clean_exit.1 cfg0 envC9 5 1
      (fun j hj => by
        have hj0 : j = 0 := by omega
        subst hj0
        rfl) rfl (by omega)).2.2.1,
    (c9_interrupt_clean_exit.1 cfg0 envC9 5 1
      (fun j hj => by
        have hj0 : j = 0 := by omega
        subst hj0
        rfl) rfl (by omega)).2.2.2⟩,
   (c9_interrupt_clean_exit.2.2 cfg0 envC9 5).1⟩

/-- A configuration with the minimum price bound explicitly `0.0` and no
maximum bound. -/
def cfgC10 : Config := ⟨0, 0, some 0, none⟩

/-- **C10** (counterexample).  The claim says any supplied bound — `0.0`
included — makes a successful non-empty cycle render the price-range
filter view.  The gate at line 181 is `if args.min_price or
args.max_price:`, Python truthiness: with `min_price = 0.0` and
`max_price = None` the gate is falsy and the cycle renders no
price-filter view at all. -/
theorem c10_counterexample :
    cfgC10.min_price = some 0
  ∧ cycleEvents cfgC10 (.ok [recPos]) = [Event.persisted 1, Event.snapshotView]
  ∧ Event.priceFilterView ∉ cycleEvents cfgC10 (.ok [recPos])
  ∧ Event.priceFilterEmpty ∉ cycleEvents cfgC10 (.ok [recPos]) := by
  decide

/-- **C10** (amended and proved).  On a successful cycle with a non-empty
snapshot, the price-range filter view is computed and rendered exactly
when at least one bound is given *and truthy*: `None` and `0.0` both
count as unset for this gate (Python `or` on floats), every other float
value counts as set. -/
theorem c10_price_gate_amended :
    ∀ (c : Config) (records : List MarketRecord), records ≠ [] →
      ((Event.priceFilterView ∈ cycleEvents c (.ok records)
          ∨ Event.priceFilterEmpty ∈ cycleEvents c (.ok records))
        ↔ (truthyOpt c.min_price || truthyOpt c.max_price) = true) := by
  intro c records h
  simp only [cycleEvents]
  rw [if_neg h]
  by_cases hg : (truthyOpt c.min_price || truthyOpt c.max_price) = true
  · simp only [hg, iff_true]
    by_cases he : filter_by_price records c.min_price c.max_price = []
    · have hpfe : priceFilterEvents c records = [Event.priceFilterEmpty] := by
        unfold priceFilterEvents
        rw [if_pos hg, if_pos he]
      rw [hpfe]
      right
      simp
    · have hpfe : priceFilterEvents c records = [Event.priceFilterView] := by
        unfold priceFilterEvents
        rw [if_pos hg, if_neg he]
      rw [hpfe]
      left
      simp
  · have hg' : (truthyOpt c.min_price || truthyOpt c.max_price) = false := by
      simpa using hg
    rw [hg']
    simp only [Bool.false_eq_true, iff_false]
    rintro (hm | hm) <;>
      (by_cases hga : c.show_gainers ≠ 0 <;> by_cases hlo : c.show_losers ≠ 0 <;>
        simp [hga, hlo, hg', priceFilterEvents] at hm)

/-- A configuration with a truthy minimum bound. -/
def cfgC10b : Config := ⟨0, 0, some 1, none⟩

/-- Witness for `c10_price_gate_amended` at concrete inputs. -/
theorem c10_price_gate_amended_witness :
    [recPos] ≠ ([] : List MarketRecord)
  ∧ ((Event.priceFilterView ∈ cycleEvents cfgC10b (.ok [recPos])
        ∨ Event.priceFilterEmpty ∈ cycleEvents cfgC10b (.ok [recPos]))
      ↔ (truthyOpt cfgC10b.min_price || truthyOpt cfgC10b.max_price) = true) :=
  ⟨by decide, c10_price_gate_amended cfgC10b [recPos] (by decide)⟩

end CryptoTracker
